import Mathlib

/-!
Verification of the tag-normalization and statement-reconstruction pipeline
of the Automated-Equity-Valuation repository.

We shallowly embed the silver statement transformers
(`src/data_extract/silver_transformer/transformer_bs.py`, `transformer_cf.py`),
the bronze balance-sheet extractor
(`src/data_extract/bronze_extractor/extractor_bs.py`), the gold builders
(`src/data_extract/gold_builder/builder_per_zip.py`, `builder_all.py`) and the
static configuration (`src/data_extract/config/tag_map_min.py`), and settle the
spec claims about them.

Modelling conventions:
* a pandas DataFrame is a list of typed rows together with a list of column
  names (the column list is used only where a claim talks about schemas);
* missing values (NaN) are `Option.none`;
* numeric fact values are rationals (`Rat`); pandas floats carry no semantics
  here beyond arithmetic and comparison on the exact values used;
* filing dates (`filed`) are naturals in `YYYYMMDD` form; pandas compares them
  as equal-length digit strings, which orders identically;
* a stable multi-column pandas `sort_values` (pandas uses a stable lexsort for
  multi-column keys) followed by `drop_duplicates(keep="first"/"last")` is
  modelled by a fold that keeps the first (resp. last) optimum of the sort
  key, which selects exactly the same row per group.
-/

set_option allowUnsafeReducibility true
set_option linter.unnecessarySeqFocus false
attribute [semireducible] Rat.mul Rat.add Rat.normalize Rat.maybeNormalize

namespace AEV

/-- Python `str.lower()`.  Defined over the character list (rather than
through `String.mapAux`) so that concrete pipeline runs evaluate inside
proofs; agrees with `String.toLower` on all strings. -/
def sLower (s : String) : String := ⟨s.data.map Char.toLower⟩

/-- Python `str.upper()` (see `sLower`). -/
def sUpper (s : String) : String := ⟨s.data.map Char.toUpper⟩

/-- One row of the FSDS `sub` (submissions) table, restricted to the columns
the pipeline reads.  All fields are raw strings except `filed` (see module
comment). -/
structure SubRow where
  adsh : String
  cik : String
  name : String
  form : String
  fy : String
  fp : String
  period : String
  filed : Nat
  sic : String
deriving Repr, DecidableEq

/-- One row of the FSDS `pre` (presentation) table. -/
structure PreRow where
  adsh : String
  tag : String
  stmt : String
deriving Repr, DecidableEq

/-- One row of the FSDS `num` (numeric facts) table.  `value` is the result of
`pd.to_numeric(..., errors="coerce")`: `none` when the raw text is missing or
unparseable. -/
structure NumRow where
  adsh : String
  tag : String
  ddate : String
  qtrs : Option String
  uom : Option String
  value : Option Rat
deriving Repr, DecidableEq

/-- A quarterly FSDS archive: the three raw tables plus the ZIP name used for
lineage stamping. -/
structure Archive where
  sub : List SubRow
  pre : List PreRow
  num : List NumRow
  zipName : String
deriving Repr, DecidableEq

/-- One row of the long (bronze) fact table produced by the statement
extractors: a numeric fact joined (left join on `adsh`) with its filing
metadata.  The left join attaches either a whole `sub` row or nothing, so the
per-column NaNs of an unmatched pandas left join are modelled by
`meta = none`. -/
structure FactRow where
  adsh : String
  tag : String
  ddate : String
  qtrs : Option String
  uom : Option String
  value : Option Rat
  meta : Option SubRow
  source_zip : String
deriving Repr, DecidableEq

/-- A bronze fact table: column names plus rows. -/
structure FactTable where
  columns : List String
  rows : List FactRow
deriving Repr, DecidableEq

/-- A forward tag map: canonical field name, paired with its ordered synonym
list (`tag_map_min.py` dictionaries, insertion order preserved as in Python
dicts). -/
abbrev TagMap := List (String × List String)

/-- `UOM_MULTIPLIERS` from `src/data_extract/config/tag_map_min.py`. -/
def UOM_MULTIPLIERS : List (String × Rat) :=
  [("USD", 1), ("USDm", 1000000), ("USDmillions", 1000000),
   ("USDth", 1000), ("USDthousands", 1000)]

/-- `MONETARY_UOMS = set(UOM_MULTIPLIERS.keys())` from `tag_map_min.py`. -/
def MONETARY_UOMS : List String := UOM_MULTIPLIERS.map (fun kv => kv.1)

/-- Modelled from the spec: `src/data_extract/config/forms.py` is imported by
every silver transformer but is not present under `src/`.  Per the spec
(annual original/amended forms) and the transformers' docstrings
("includes BOTH annual (10-K/10-K/A) and quarterly (10-Q/10-Q/A)"). -/
def ANNUAL_FORMS : List String := ["10-K", "10-K/A"]

/-- Modelled from the spec: quarterly original/amended forms from the missing
`src/data_extract/config/forms.py` (see `ANNUAL_FORMS`). -/
def QUARTERLY_FORMS : List String := ["10-Q", "10-Q/A"]

/-- Modelled from the spec: all accepted forms from the missing
`src/data_extract/config/forms.py` (see `ANNUAL_FORMS`). -/
def ALL_FORMS : List String := ANNUAL_FORMS ++ QUARTERLY_FORMS

/-- `BS` tag map from `src/data_extract/config/tag_map_min.py`. -/
def BS : TagMap :=
  [("CashAndCashEquivalents",
    ["CashAndCashEquivalentsAtCarryingValue", "Cash", "RestrictedCashCurrent"]),
   ("ShortTermInvestments",
    ["ShortTermInvestments", "InvestmentOwnedAtFairValue", "InvestmentOwnedAtCost"]),
   ("AccountsReceivable",
    ["AccountsReceivableNetCurrent", "OtherReceivablesNetCurrent",
     "FinancingReceivableExcludingAccruedInterestBeforeAllowanceForCreditLoss",
     "AllowanceForDoubtfulAccountsReceivableCurrent"]),
   ("Inventory", ["InventoryNet"]),
   ("TotalCurrentAssets", ["AssetsCurrent", "CurrentAssets"]),
   ("PPandE",
    ["PropertyPlantAndEquipmentNet",
     "PropertyPlantAndEquipmentIncludingRightofuseAssets",
     "PropertyPlantAndEquipment"]),
   ("Goodwill", ["Goodwill"]),
   ("Intangibles",
    ["IntangibleAssetsNetExcludingGoodwill", "FiniteLivedIntangibleAssetsNet",
     "IntangibleAssetsOtherThanGoodwill", "IntangibleAssetsAndGoodwill"]),
   ("TotalAssets",
    ["Assets", "LiabilitiesAndStockholdersEquity", "LiabilitiesAndEquity",
     "EquityAndLiabilities"]),
   ("TotalNoncurrentAssets", ["AssetsNoncurrent", "NoncurrentAssets"]),
   ("AccountsPayable",
    ["AccountsPayableCurrent", "AccountsPayableAndAccruedLiabilitiesCurrent",
     "TradeAndOtherCurrentPayables"]),
   ("ShortTermDebt",
    ["LongTermDebtCurrent", "ShortTermBorrowings", "NotesPayableCurrent"]),
   ("TotalCurrentLiabilities", ["LiabilitiesCurrent", "CurrentLiabilities"]),
   ("LongTermDebt", ["LongTermDebtNoncurrent", "LongtermBorrowings"]),
   ("OtherCurrentLiabilities",
    ["OtherLiabilitiesCurrent", "AccruedLiabilitiesCurrent", "TaxesPayableCurrent",
     "AccruedIncomeTaxesCurrent", "EmployeeRelatedLiabilitiesCurrent",
     "ContractWithCustomerLiabilityCurrent", "DerivativeLiabilitiesCurrent"]),
   ("OtherNoncurrentLiabilities",
    ["OtherLiabilitiesNoncurrent", "LiabilitiesNoncurrent", "NoncurrentLiabilities"]),
   ("TotalLiabilities", ["Liabilities"]),
   ("ShareholdersEquity",
    ["StockholdersEquity",
     "StockholdersEquityIncludingPortionAttributableToNoncontrollingInterest",
     "Equity", "TotalEquity", "EquityAttributableToOwnersOfParent"]),
   ("RetainedEarnings", ["RetainedEarningsAccumulatedDeficit"]),
   ("TreasuryStock", ["TreasuryStockCommonValue", "TreasuryStockValue"])]

/-- `str(x)` applied to a possibly-missing pandas value: NaN renders as the
string `"nan"` (`astype(str)` semantics used by the fp and uom filters). -/
def optStr (o : Option String) : String :=
  match o with
  | none => "nan"
  | some s => s

/-! ## Bronze extractor (`extractor_bs.py`) -/

/-- `extract_balance_sheets` step 2: the deduplicated `(adsh, tag)` pairs whose
presentation statement is `"BS"` (case-insensitive). -/
def bsTagPairs (pre : List PreRow) : List (String × String) :=
  ((pre.filter (fun p => sUpper p.stmt == "BS")).map (fun p => (p.adsh, p.tag))).dedup

/-- Column list of the early empty return of `extract_balance_sheets`
(`extractor_bs.py` lines 39-42, written out literally there). -/
def BS_EMPTY_COLS : List String :=
  ["adsh", "tag", "ddate", "qtrs", "uom", "value",
   "cik", "name", "form", "fy", "fp", "period", "filed", "sic", "source_zip"]

/-- Column list of the non-empty output of `extract_balance_sheets`: the `num`
columns, the joined `sub` metadata columns (which include `instance`), and the
lineage column.  Only the order of the modelled columns is kept; the unused
`num` columns (`coreg`, `dimh`, `iprx`, `version`) carried along by pandas are
omitted, and no theorem depends on this list beyond being non-empty and
different from the silver empty return. -/
def BS_LONG_COLS : List String :=
  ["adsh", "tag", "ddate", "qtrs", "uom", "value",
   "cik", "name", "form", "fy", "fp", "period", "filed", "sic", "instance",
   "source_zip"]

/-- `valid_forms` of `extract_balance_sheets` (annual forms, a literal in the
bronze extractor). -/
def BRONZE_BS_FORMS : List String := ["10-K", "10-K/A"]

/-- Assemble a long fact row from a numeric row and the (possibly missing)
matched submissions row. -/
def mkFact (n : NumRow) (m : Option SubRow) (zipName : String) : FactRow :=
  { adsh := n.adsh, tag := n.tag, ddate := n.ddate, qtrs := n.qtrs,
    uom := n.uom, value := n.value, meta := m, source_zip := zipName }

/-- `extract_balance_sheets` (`extractor_bs.py`): select BS-presented pairs,
inner-join numeric facts on `(adsh, tag)`, restrict submissions to annual
forms, left-join metadata on `adsh` (FSDS `sub` has one row per `adsh`, so the
first match is the only match), coerce values and drop unparseable rows, stamp
lineage. -/
def extract_balance_sheets (ar : Archive) : FactTable :=
  let pairs := bsTagPairs ar.pre
  if pairs.isEmpty then ⟨BS_EMPTY_COLS, []⟩
  else
    let numBs := ar.num.filter (fun n => pairs.contains (n.adsh, n.tag))
    let subFiltered := ar.sub.filter (fun s => BRONZE_BS_FORMS.contains s.form)
    let joined := numBs.map
      (fun n => mkFact n (subFiltered.find? (fun s => s.adsh == n.adsh)) ar.zipName)
    ⟨BS_LONG_COLS, joined.filter (fun r => r.value.isSome)⟩

/-! ## Silver transformer shared steps
(`transformer_bs.py`, `transformer_cf.py`, `transformer_is.py`) -/

/-- Step 2 of the silver transformers: the form mask (`form.isin(forms)`)
conjoined with the optional fiscal-period mask
(`fp.astype(str).str.upper().isin(...)`).  A missing `meta` (unmatched left
join) makes `isin` false; `optStr` models `astype(str)` on NaN. -/
def formFpMask (forms : List String) (fp : Option (List String)) (r : FactRow) : Bool :=
  (match r.meta with
   | some m => forms.contains m.form
   | none => false) &&
  (match fp with
   | none => true
   | some fps =>
       (fps.map sUpper).contains (sUpper (optStr (r.meta.map (fun m => m.fp)))))

/-- Step 3 of the balance-sheet transformer (`transformer_bs.py` lines 75-78):
`qtrs.fillna("0") == "0"` and `ddate == period`.  A missing `period`
(unmatched metadata) compares unequal, as NaN does in pandas. -/
def instantMask (r : FactRow) : Bool :=
  (r.qtrs.getD "0" == "0") &&
  (match r.meta with
   | some m => r.ddate == m.period
   | none => false)

/-- Step 3 of the cash-flow / income-statement transformers
(`transformer_cf.py` lines 71-80): annual forms need `qtrs == "4"`, quarterly
forms need `qtrs` in `{"1","2","3"}`, and in both cases `ddate == period`.
A NaN `qtrs` compares unequal to every string, as in pandas. -/
def durationMask (r : FactRow) : Bool :=
  (match r.meta with
   | some m =>
       (ANNUAL_FORMS.contains m.form && r.qtrs == some "4") ||
       (QUARTERLY_FORMS.contains m.form &&
        (r.qtrs == some "1" || r.qtrs == some "2" || r.qtrs == some "3"))
   | none => false) &&
  (match r.meta with
   | some m => r.ddate == m.period
   | none => false)

/-- The loop body of `_uom_mult`: first multiplier whose key matches the
lowered unit case-insensitively; `none` when the loop falls through to the
final `return 1.0` fallback. -/
def uomMultLoop (ul : String) : Option Rat :=
  (UOM_MULTIPLIERS.find? (fun kv => ul == sLower kv.1)).map (fun kv => kv.2)

/-- `_uom_mult` (`transformer_bs.py` lines 22-29): 1.0 on NaN, else the
case-insensitive table lookup with fallback 1.0. -/
def uomMult (u : Option String) : Rat :=
  match u with
  | none => 1
  | some s => (uomMultLoop (sLower s)).getD 1

/-- Whether `_uom_mult` reached its final fallback `return 1.0` (the loop
found no matching key; the NaN early return is a different branch). -/
def uomMultFallback (u : Option String) : Bool :=
  match u with
  | none => false
  | some s => (uomMultLoop (sLower s)).isNone

/-- Step 4 unit filter: `uom.astype(str).str.lower()` is in the lowered
`MONETARY_UOMS` set. -/
def unitMask (r : FactRow) : Bool :=
  (MONETARY_UOMS.map sLower).contains (sLower (optStr r.uom))

/-- Step 4 of the silver transformers (`transformer_bs.py` lines 82-88):
monetary-unit filter, numeric coercion (already done in the bronze model),
multiplication by the unit multiplier, and `dropna` on the value. -/
def unitNormalize (rows : List FactRow) : List FactRow :=
  (((rows.filter unitMask).map
      (fun r => { r with value := r.value.map (fun v => v * uomMult r.uom) })).filter
    (fun r => r.value.isSome))

/-- `_reverse_map` (`transformer_bs.py` lines 13-19) as the function it
computes: iterate the forward map in insertion order and write
`rev[t] = canon` for every `t` in `{canon} ∪ synonyms`; later writes overwrite
earlier ones.  (The Python inner loop iterates a `set`, whose order is
irrelevant because every write in one iteration stores the same `canon`.) -/
def reverseMapFun (forward : TagMap) : String → Option String :=
  forward.foldl
    (fun rev e => fun t => if (e.1 :: e.2).contains t then some e.1 else rev t)
    (fun _ => none)

/-- A fact row paired with the canonical field its tag mapped to
(the `canon` column of step 5). -/
structure MappedRow where
  row : FactRow
  canon : String
deriving Repr, DecidableEq

/-- Step 5, mapped side: rows whose tag has a reverse-map entry, carrying the
canonical name. -/
def mapCanon (tagMap : TagMap) (rows : List FactRow) : List MappedRow :=
  rows.filterMap (fun r => (reverseMapFun tagMap r.tag).map (fun c => ⟨r, c⟩))

/-- Step 5, unknown side-table: rows whose tag has no reverse-map entry. -/
def unknownRows (tagMap : TagMap) (rows : List FactRow) : List FactRow :=
  rows.filter (fun r => (reverseMapFun tagMap r.tag).isNone)

/-- Index of the last occurrence of `t` in `l` (a Python
`for i, t in enumerate«...»: d[t] = i` loop stores the last index). -/
def lastIdxOf (l : List String) (t : String) : Option Nat :=
  ((l.enum.filter (fun p => p.2 == t)).getLast?).map (fun p => p.1)

/-- The `pref_rank` table (`transformer_bs.py` lines 101-109):
`pref_rank[(canon, t)] = i` for `t` at position `i` of `[canon, *syns]`, with
dict semantics (a duplicate canonical key would keep its last entry), and the
`.get(..., 10_000)` default for combinations not in the table. -/
def prefRank (tagMap : TagMap) (canon tag : String) : Nat :=
  match (tagMap.filter (fun e => e.1 == canon)).getLast? with
  | none => 10000
  | some e => (lastIdxOf (e.1 :: e.2) tag).getD 10000

/-- The preference rank of a mapped row (`__rank` column). -/
def mRank (tagMap : TagMap) (m : MappedRow) : Nat := prefRank tagMap m.canon m.row.tag

/-- The absolute value of a mapped row (`__abs` column).  After step 4 every
value is present; `getD 0` only totalizes the model. -/
def mAbs (m : MappedRow) : Rat := |m.row.value.getD 0|

/-- One comparison step of collision resolution: keep `a` unless `b` is
strictly preferred — lower `__rank`, or equal `__rank` and larger `__abs`.
Folding this over a candidate list selects exactly the row that
`sort_values(["adsh","canon","__rank","__abs"], ascending=[T,T,T,F])` (a
stable lexsort) followed by `drop_duplicates(["adsh","canon"], keep="first")`
keeps: the first row in input order among those with minimal rank and, within
minimal rank, maximal absolute value. -/
def pickPreferred (tagMap : TagMap) (a b : MappedRow) : MappedRow :=
  if mRank tagMap b < mRank tagMap a then b
  else if mRank tagMap a < mRank tagMap b then a
  else if mAbs a < mAbs b then b else a

/-- The candidate facts of one `(adsh, canon)` cell. -/
def candidates (mapped : List MappedRow) (adsh canon : String) : List MappedRow :=
  mapped.filter (fun m => m.row.adsh == adsh && m.canon == canon)

/-- Step 6: the fact resolved for one `(adsh, canon)` cell (see
`pickPreferred`), `none` when the filing contributes no candidate. -/
def resolveCell (tagMap : TagMap) (mapped : List MappedRow) (adsh canon : String) :
    Option MappedRow :=
  match candidates mapped adsh canon with
  | [] => none
  | h :: t => some (t.foldl (pickPreferred tagMap) h)

/-- A wide statement table: column names plus the `(adsh, canon, value)`
cells.  `pd.DataFrame()` (the transformers' empty early returns) is
`⟨[], []⟩` — a table with zero columns. -/
structure WideTable where
  columns : List String
  cells : List (String × String × Rat)
deriving Repr, DecidableEq

/-- The identifying columns carried through the pivot (`index_cols`). -/
def INDEX_COLS : List String :=
  ["adsh", "cik", "name", "form", "fy", "fp", "filed", "period", "sic"]

/-- Step 7: pivot the collision-resolved facts to one row per filing.  Columns
are the identifying columns followed by the canonical columns (pandas orders
pivot columns sorted; no theorem depends on their order, so insertion order is
kept).  Cells hold the resolved value per `(adsh, canon)`. -/
def pivotWide (tagMap : TagMap) (mapped : List MappedRow) : WideTable :=
  let adshs := (mapped.map (fun m => m.row.adsh)).dedup
  let canons := (mapped.map (fun m => m.canon)).dedup
  { columns := INDEX_COLS ++ canons,
    cells := adshs.flatMap (fun a =>
      canons.filterMap (fun c =>
        (resolveCell tagMap mapped a c).map (fun m => (a, c, m.row.value.getD 0)))) }

/-- The empty `pd.DataFrame()` returned by every early exit of the silver
transformers: zero columns, zero rows. -/
def emptyWide : WideTable := ⟨[], []⟩

/-- `transform_balance_sheet_to_wide` (`transformer_bs.py`): bronze extract,
form/fp filter, instant filter, unit filter and normalization, tag mapping,
collision resolution, pivot; every emptied intermediate short-circuits to
`pd.DataFrame()`.  `forms = none` models the `forms=None` default resolved to
`ALL_FORMS`. -/
def transform_balance_sheet_to_wide (ar : Archive) (tagMap : TagMap)
    (forms : Option (List String)) (fp : Option (List String)) : WideTable :=
  let bs0 := extract_balance_sheets ar
  if bs0.rows.isEmpty then emptyWide
  else
    let theForms := forms.getD ALL_FORMS
    let s2 := bs0.rows.filter (formFpMask theForms fp)
    if s2.isEmpty then emptyWide
    else
      let s3 := s2.filter instantMask
      if s3.isEmpty then emptyWide
      else
        let s4 := unitNormalize s3
        if s4.isEmpty then emptyWide
        else
          let mapped := mapCanon tagMap s4
          if mapped.isEmpty then emptyWide
          else pivotWide tagMap mapped

/-- Read one cell of a wide table. -/
def wideCell (w : WideTable) (adsh canon : String) : Option Rat :=
  (w.cells.find? (fun c => c.1 == adsh && c.2.1 == canon)).map (fun c => c.2.2)

/-! ## Gold builders (`builder_per_zip.py`, `builder_all.py`) -/

/-- One row of a gold panel, restricted to the fields the claims touch.
`cik`, `fy`, `filed` and `form` may be missing per row (their *columns* are
tracked separately on the panel). -/
structure PanelRow where
  adsh : String
  cik : Option String
  fy : Option String
  filed : Option Nat
  form : Option String
  CFO : Option Rat
  CFI : Option Rat
  CFF : Option Rat
deriving Repr, DecidableEq

/-- A gold panel: column names plus rows. -/
structure Panel where
  columns : List String
  rows : List PanelRow
deriving Repr, DecidableEq

/-- The `(cik, fy)` deduplication key of a panel row. -/
def rowKey (r : PanelRow) : Option String × Option String := (r.cik, r.fy)

/-- Ordering on the `filed` sort key: pandas `sort_values` ascending places
NaN last, so a missing date sorts above every present date. -/
def filedLe (a b : Option Nat) : Bool :=
  match a, b with
  | _, none => true
  | none, some _ => false
  | some x, some y => x ≤ y

/-- The row `sort_values(["cik","fy","filed"])` (stable) followed by
`drop_duplicates(["cik","fy"], keep="last")` keeps within one `(cik, fy)`
group: the last row in input order among those with the greatest `filed`. -/
def chooseLatest (g : List PanelRow) : Option PanelRow :=
  match g with
  | [] => none
  | h :: t => some (t.foldl (fun acc r => if filedLe acc.filed r.filed then r else acc) h)

/-- `_latest_per_cik_fy` (`builder_per_zip.py` lines 21-28): a no-op on an
empty frame or when any of the `cik`/`fy`/`filed` columns is absent;
otherwise one surviving row per `(cik, fy)` key (see `chooseLatest`; the
sorted output order of pandas is not tracked — no claim depends on row
order). -/
def latest_per_cik_fy (p : Panel) : Panel :=
  if p.rows.isEmpty then p
  else if ¬ (["cik", "fy", "filed"].all (fun c => p.columns.contains c)) then p
  else
    { p with
      rows := ((p.rows.map rowKey).dedup).filterMap
        (fun k => chooseLatest (p.rows.filter (fun r => rowKey r == k))) }

/-- The cash-flow identity flag of `_qc_flags` (`builder_per_zip.py` lines
46-54): all-NA when any of the `CFO`/`CFI`/`CFF` columns is absent from the
frame; otherwise `|row sum with skipna=True| ≤ 1_000` — a missing component
contributes 0 to the sum (an all-missing row sums to 0.0). -/
def cfBalancedFlag (cols : List String) (r : PanelRow) : Option Bool :=
  if cols.contains "CFO" && cols.contains "CFI" && cols.contains "CFF" then
    some (decide (|r.CFO.getD 0 + r.CFI.getD 0 + r.CFF.getD 0| ≤ (1000 : Rat)))
  else none

/-- The identifier columns moved to the front by `build_gold_all`
(`builder_all.py` lines 29-32). -/
def GOLD_ID_COLS : List String :=
  ["adsh", "cik", "name", "form", "fy", "fp", "period", "filed",
   "sic", "industry", "source_zip"]

/-- `build_gold_all` (`src/data_extract/gold_builder/builder_all.py`):
concatenate all per-ZIP gold panels, recompute QC flags (flags are derived
columns — they change no row multiplicity and are modelled by
`cfBalancedFlag` over the final column set), and stabilize column order with
identifiers first.  This version deliberately performs **no** deduplication
by `(cik, fy)` ("keeps all filings ... No dedup by (cik, fy)"). -/
def build_gold_all (panels : List Panel) : Panel :=
  if panels.isEmpty then ⟨[], []⟩
  else
    let cols := ((panels.map (fun p => p.columns)).flatten).dedup
    { columns := GOLD_ID_COLS.filter (fun c => cols.contains c) ++
        cols.filter (fun c => ¬ GOLD_ID_COLS.contains c),
      rows := (panels.map (fun p => p.rows)).flatten }

/-- Number of rows of a panel carrying a given `(cik, fy)` key. -/
def keyCount (p : Panel) (k : Option String × Option String) : Nat :=
  (p.rows.filter (fun r => rowKey r == k)).length

/-! ## Reverse tag map lemmas -/

/-- Unfolding the `_reverse_map` fold: the resulting lookup returns the
canonical name of the last forward entry whose tag set contains the tag, and
falls back to the accumulator otherwise. -/
theorem reverseMap_foldl (fwd : TagMap) (acc : String → Option String) (t : String) :
    (fwd.foldl
      (fun rev e => fun x => if (e.1 :: e.2).contains x then some e.1 else rev x)
      acc) t
      = match (fwd.filter (fun e => (e.1 :: e.2).contains t)).getLast? with
        | some e => some e.1
        | none => acc t := by
  induction fwd generalizing acc with
  | nil => rfl
  | cons e rest ih =>
      rw [List.foldl_cons, List.filter_cons, ih]
      by_cases hP : ((e.1 :: e.2).contains t) = true
      · rw [if_pos hP, if_pos hP]
        rcases hrest : (rest.filter (fun e => (e.1 :: e.2).contains t)) with _ | ⟨e', l⟩
        · rw [hrest]
          rfl
        · rw [hrest, List.getLast?_cons_cons]
          rcases hgl : (e' :: l).getLast? with _ | z
          · exact absurd (List.getLast?_eq_none_iff.mp hgl) (List.cons_ne_nil e' l)
          · rfl
      · rw [if_neg hP, if_neg hP]

/-- `reverseMapFun` characterization as a plain statement on the public
definition. -/
theorem reverseMapFun_eq_getLast (fwd : TagMap) (t : String) :
    reverseMapFun fwd t
      = match (fwd.filter (fun e => (e.1 :: e.2).contains t)).getLast? with
        | some e => some e.1
        | none => none := by
  unfold reverseMapFun
  exact reverseMap_foldl fwd (fun _ => none) t

/-- C10 — Implicit — reverse tag map is a total last-wins function: for every
forward tag map, the `_reverse_map` lookup of a tag is exactly the canonical
name of the *last* forward entry (in iteration order) whose tag set — the
canonical name itself plus its synonym list — contains the tag (`none` when no
entry contains it, so the mapping is a well-defined many-to-one function and
earlier assignments are silently shadowed); and every canonical name whose tag
does not occur in any later entry's tag set maps to itself. -/
theorem c10_reverse_map_total_last_wins :
    (∀ (fwd : TagMap) (t : String),
      reverseMapFun fwd t
        = match (fwd.filter (fun e => (e.1 :: e.2).contains t)).getLast? with
          | some e => some e.1
          | none => none) ∧
    (∀ (fwd₁ fwd₂ : TagMap) (c : String) (syns : List String),
      (∀ e ∈ fwd₂, ((e.1 :: e.2).contains c) = false) →
      reverseMapFun (fwd₁ ++ (c, syns) :: fwd₂) c = some c) := by
  refine ⟨reverseMapFun_eq_getLast, ?_⟩
  intro fwd₁ fwd₂ c syns hlater
  rw [reverseMapFun_eq_getLast]
  have hfilter₂ : fwd₂.filter (fun e => (e.1 :: e.2).contains c) = [] := by
    apply List.filter_eq_nil_iff.mpr
    intro e he
    simpa using hlater e he
  have hc : ((((c, syns) : String × List String).1 ::
      ((c, syns) : String × List String).2).contains c) = true := by simp
  rw [List.filter_append, List.filter_cons, if_pos hc, hfilter₂, List.getLast?_concat]

/-- Witness for `c10_reverse_map_total_last_wins`: on the forward map
`{A ↦ [x], B ↦ [x]}` the shared synonym `x` maps to the later field `B`, and
`A` (absent from `B`'s tag set) maps to itself. -/
theorem c10_reverse_map_total_last_wins_witness :
    reverseMapFun [("A", ["x"]), ("B", ["x"])] "x" = some "B" ∧
    reverseMapFun [("A", ["x"]), ("B", ["x"])] "A" = some "A" := by
  constructor
  · rw [c10_reverse_map_total_last_wins.1 [("A", ["x"]), ("B", ["x"])] "x"]
    decide
  · have h := c10_reverse_map_total_last_wins.2 [] [("B", ["x"])] "A" ["x"] (by decide)
    simpa using h

/-! ## Unit normalization lemmas -/

/-- If a lowered unit string occurs among the lowered keys of a multiplier
table, the case-insensitive `find?` of `_uom_mult`'s loop succeeds, and it
returns the first (hence, for `UOM_MULTIPLIERS`, the unique) matching entry. -/
theorem find?_of_contains_lower (tbl : List (String × Rat)) (s : String) :
    ((tbl.map (fun kv => kv.1)).map sLower).contains s = true →
    ∃ kv, tbl.find? (fun kv => s == sLower kv.1) = some kv ∧
      kv ∈ tbl ∧ s = sLower kv.1 := by
  induction tbl with
  | nil => intro h; simp at h
  | cons kv rest ih =>
      intro h
      by_cases hs : s = sLower kv.1
      · refine ⟨kv, ?_, List.mem_cons_self kv rest, hs⟩
        simp [List.find?_cons, hs]
      · have h' : ((rest.map (fun kv => kv.1)).map sLower).contains s = true := by
          simp only [List.map_cons, List.contains_cons] at h
          rcases Bool.or_eq_true_iff.mp h with h1 | h1
          · exact absurd (eq_of_beq h1) hs
          · exact h1
        rcases ih h' with ⟨kv', hfind, hmem, hlow⟩
        refine ⟨kv', ?_, List.mem_cons_of_mem kv hmem, hlow⟩
        rw [List.find?_cons]
        have : (s == sLower kv.1) = false := beq_eq_false_iff_ne.mpr hs
        simp [this, hfind]

/-- C9 — Implicit — unreachable unit-scale fallback: every fact row that
passes the monetary unit filter has a unit whose lowered spelling matches a
key of `UOM_MULTIPLIERS`, so `_uom_mult`'s trailing `return 1.0` fallback is
not reached and the multiplier applied is one actually present in the
table. -/
theorem c9_unit_fallback_unreachable (r : FactRow) (h : unitMask r = true) :
    uomMultFallback r.uom = false ∧
    ∃ k v, (k, v) ∈ UOM_MULTIPLIERS ∧
      sLower (optStr r.uom) = sLower k ∧ uomMult r.uom = v := by
  rcases hu : r.uom with _ | u
  · exfalso
    unfold unitMask at h
    rw [hu] at h
    exact absurd h (by decide)
  · unfold unitMask at h
    rw [hu] at h
    have h' : ((UOM_MULTIPLIERS.map (fun kv => kv.1)).map sLower).contains
        (sLower (optStr (some u))) = true := by
      simpa [MONETARY_UOMS] using h
    rcases find?_of_contains_lower UOM_MULTIPLIERS (sLower (optStr (some u))) h'
      with ⟨kv, hfind, hmem, hlow⟩
    have hloop : uomMultLoop (sLower u) = some kv.2 := by
      unfold uomMultLoop
      rw [show sLower (optStr (some u)) = sLower u from rfl] at hfind
      rw [hfind]
      rfl
    refine ⟨?_, kv.1, kv.2, by simpa using hmem, hlow, ?_⟩
    · simp [uomMultFallback, hloop]
    · simp [uomMult, hloop]

/-- Witness for `c9_unit_fallback_unreachable` at the unit `"usd"` (a
lower-case spelling of the key `"USD"`). -/
theorem c9_unit_fallback_unreachable_witness :
    unitMask { adsh := "a", tag := "Assets", ddate := "d", qtrs := some "0",
               uom := some "usd", value := some 5, meta := none,
               source_zip := "z" } = true ∧
    uomMultFallback (some "usd") = false := by
  refine ⟨by decide, ?_⟩
  exact (c9_unit_fallback_unreachable
    { adsh := "a", tag := "Assets", ddate := "d", qtrs := some "0",
      uom := some "usd", value := some 5, meta := none, source_zip := "z" }
    (by decide)).1

/-- C6 — Unit normalization: every row of the unit-normalization step's output
comes from an input row whose unit passed the monetary filter; its value is
the input value multiplied by the case-insensitive table multiplier of its
unit; and its unit matches a key of `UOM_MULTIPLIERS` case-insensitively —
facts with unrecognized units never appear in the output. -/
theorem c6_unit_normalization (rows : List FactRow) (r' : FactRow)
    (h : r' ∈ unitNormalize rows) :
    ∃ r, r ∈ rows ∧ unitMask r = true ∧
      (∃ v, r.value = some v ∧ r' = { r with value := some (v * uomMult r.uom) }) ∧
      ∃ k mval, (k, mval) ∈ UOM_MULTIPLIERS ∧
        sLower (optStr r.uom) = sLower k ∧ uomMult r.uom = mval := by
  unfold unitNormalize at h
  rcases List.mem_filter.mp h with ⟨hmap, hsome⟩
  rcases List.mem_map.mp hmap with ⟨r, hrmem, hreq⟩
  rcases List.mem_filter.mp hrmem with ⟨hrows, hmask⟩
  rcases hv : r.value with _ | v
  · rw [← hreq] at hsome
    simp [hv] at hsome
  · refine ⟨r, hrows, hmask, ⟨v, hv, ?_⟩, ?_⟩
    · rw [← hreq, hv]
      rfl
    · exact (c9_unit_fallback_unreachable r hmask).2

/-- Witness for `c6_unit_normalization`: a `"USDth"` fact of raw value 5 is
normalized to 5000. -/
theorem c6_unit_normalization_witness :
    ∃ r', r' ∈ unitNormalize
      [{ adsh := "a", tag := "Assets", ddate := "d", qtrs := some "0",
         uom := some "USDth", value := some 5, meta := none,
         source_zip := "z" }] ∧ r'.value = some 5000 ∧
    (∃ r, r ∈ [{ adsh := "a", tag := "Assets", ddate := "d", qtrs := some "0",
                 uom := some "USDth", value := some 5, meta := none,
                 source_zip := "z" }] ∧ unitMask r = true ∧
      (∃ v, r.value = some v ∧ r' = { r with value := some (v * uomMult r.uom) }) ∧
      ∃ k mval, (k, mval) ∈ UOM_MULTIPLIERS ∧
        sLower (optStr r.uom) = sLower k ∧ uomMult r.uom = mval) := by
  refine ⟨{ adsh := "a", tag := "Assets", ddate := "d", qtrs := some "0",
            uom := some "USDth", value := some 5000, meta := none,
            source_zip := "z" }, by decide, by decide, ?_⟩
  exact c6_unit_normalization _ _ (by decide)

/-! ## Temporal alignment -/

/-- C2 — counterexample: the claim "every balance-sheet fact that survives the
instant filter has `duration_quarters` equal to 0" fails — `fillna("0")` lets
a fact with *missing* `qtrs` survive the filter, and its duration is missing,
not 0. -/
theorem c2_temporal_alignment_counterexample :
    instantMask
      { adsh := "a1", tag := "Assets", ddate := "20241231", qtrs := none,
        uom := some "USD", value := some 5,
        meta := some ⟨"a1", "1", "N", "10-K", "2024", "FY", "20241231", 20250214, "1"⟩,
        source_zip := "z" } = true ∧
    ({ adsh := "a1", tag := "Assets", ddate := "20241231", qtrs := none,
       uom := some "USD", value := some 5,
       meta := some ⟨"a1", "1", "N", "10-K", "2024", "FY", "20241231", 20250214, "1"⟩,
       source_zip := "z" } : FactRow).qtrs ≠ some "0" := by
  constructor
  · decide
  · decide

/-- C2 — Temporal alignment filter, amended: every fact surviving the
balance-sheet instant filter has `duration_quarters` equal to 0 **or
missing** (`fillna("0")` counts a missing duration as instant) and fact date
equal to the filing's period-end date; every fact of an annual-form filing
surviving the cash-flow/income-statement duration filter has
`duration_quarters` equal to 4 and fact date equal to the period-end date. -/
theorem c2_temporal_alignment (r : FactRow) :
    (instantMask r = true →
      (r.qtrs = some "0" ∨ r.qtrs = none) ∧
      ∃ m, r.meta = some m ∧ r.ddate = m.period) ∧
    (∀ m, durationMask r = true → r.meta = some m →
      ANNUAL_FORMS.contains m.form = true →
      r.qtrs = some "4" ∧ r.ddate = m.period) := by
  constructor
  · intro h
    unfold instantMask at h
    rcases Bool.and_eq_true_iff.mp h with ⟨hq, hd⟩
    constructor
    · rcases hqv : r.qtrs with _ | s
      · exact Or.inr rfl
      · rw [hqv] at hq
        simp only [Option.getD_some] at hq
        exact Or.inl (by rw [eq_of_beq hq])
    · rcases hmv : r.meta with _ | m
      · rw [hmv] at hd
        simp at hd
      · rw [hmv] at hd
        exact ⟨m, rfl, eq_of_beq hd⟩
  · intro m h hm hann
    unfold durationMask at h
    rw [hm] at h
    rcases Bool.and_eq_true_iff.mp h with ⟨hq, hd⟩
    have hquart : QUARTERLY_FORMS.contains m.form = false := by
      have : m.form = "10-K" ∨ m.form = "10-K/A" := by
        simpa [ANNUAL_FORMS] using hann
      rcases this with h1 | h1 <;> rw [h1] <;> decide
    rcases Bool.or_eq_true_iff.mp hq with h4 | h123
    · rcases Bool.and_eq_true_iff.mp h4 with ⟨_, hq4⟩
      exact ⟨eq_of_beq hq4, eq_of_beq hd⟩
    · rcases Bool.and_eq_true_iff.mp h123 with ⟨hqf, _⟩
      rw [hquart] at hqf
      exact absurd hqf (by decide)

/-- Witness for `c2_temporal_alignment`: an instant balance-sheet fact dated
at period end, and an annual cash-flow fact with a four-quarter duration. -/
theorem c2_temporal_alignment_witness :
    (({ adsh := "a1", tag := "Assets", ddate := "20241231", qtrs := some "0",
        uom := some "USD", value := some 5,
        meta := some ⟨"a1", "1", "N", "10-K", "2024", "FY", "20241231", 20250214, "1"⟩,
        source_zip := "z" } : FactRow).qtrs = some "0" ∨
     ({ adsh := "a1", tag := "Assets", ddate := "20241231", qtrs := some "0",
        uom := some "USD", value := some 5,
        meta := some ⟨"a1", "1", "N", "10-K", "2024", "FY", "20241231", 20250214, "1"⟩,
        source_zip := "z" } : FactRow).qtrs = none) ∧
    ({ adsh := "a1", tag := "CFO", ddate := "20241231", qtrs := some "4",
       uom := some "USD", value := some 5,
       meta := some ⟨"a1", "1", "N", "10-K", "2024", "FY", "20241231", 20250214, "1"⟩,
       source_zip := "z" } : FactRow).qtrs = some "4" := by
  constructor
  · exact ((c2_temporal_alignment
      { adsh := "a1", tag := "Assets", ddate := "20241231", qtrs := some "0",
        uom := some "USD", value := some 5,
        meta := some ⟨"a1", "1", "N", "10-K", "2024", "FY", "20241231", 20250214, "1"⟩,
        source_zip := "z" }).1 (by decide)).1
  · exact ((c2_temporal_alignment
      { adsh := "a1", tag := "CFO", ddate := "20241231", qtrs := some "4",
        uom := some "USD", value := some 5,
        meta := some ⟨"a1", "1", "N", "10-K", "2024", "FY", "20241231", 20250214, "1"⟩,
        source_zip := "z" }).2
      ⟨"a1", "1", "N", "10-K", "2024", "FY", "20241231", 20250214, "1"⟩
      (by decide) (by decide) (by decide)).1

/-! ## Cash-flow identity flag -/

/-- C8 — counterexample: with all three cash-flow columns present, a row with
a *missing* CFO still receives a present (false) flag — the claim that the
flag is absent whenever a component is missing for the row fails, because the
row sum uses `skipna=True`. -/
theorem c8_cf_flag_counterexample :
    cfBalancedFlag ["CFO", "CFI", "CFF"]
      { adsh := "a", cik := none, fy := none, filed := none, form := none,
        CFO := none, CFI := some 5000, CFF := some 0 } = some false ∧
    ({ adsh := "a", cik := none, fy := none, filed := none, form := none,
       CFO := none, CFI := some 5000, CFF := some 0 } : PanelRow).CFO = none := by
  constructor
  · decide
  · decide

/-- C8 — Cash-flow identity flag, amended: the flag column is all-NA exactly
when one of the `CFO`/`CFI`/`CFF` *columns* is absent from the panel; when all
three columns are present every row gets a boolean flag equal to
`|sum of the present components (missing treated as 0)| ≤ 1 000` — in
particular, for a row with all three values present, the flag is true iff
`|CFO + CFI + CFF| ≤ 1 000`. -/
theorem c8_cf_flag (cols : List String) (r : PanelRow) :
    (cols.contains "CFO" = true → cols.contains "CFI" = true →
     cols.contains "CFF" = true →
      cfBalancedFlag cols r
        = some (decide (|r.CFO.getD 0 + r.CFI.getD 0 + r.CFF.getD 0| ≤ (1000 : Rat))) ∧
      (∀ a b c, r.CFO = some a → r.CFI = some b → r.CFF = some c →
        (cfBalancedFlag cols r = some true ↔ |a + b + c| ≤ (1000 : Rat)))) ∧
    ((cols.contains "CFO" && cols.contains "CFI" && cols.contains "CFF") = false →
      cfBalancedFlag cols r = none) := by
  constructor
  · intro h1 h2 h3
    have hcond : (cols.contains "CFO" && cols.contains "CFI" && cols.contains "CFF") = true := by
      rw [h1, h2, h3]
      rfl
    constructor
    · unfold cfBalancedFlag
      rw [if_pos hcond]
    · intro a b c ha hb hc
      unfold cfBalancedFlag
      rw [if_pos hcond, ha, hb, hc]
      simp only [Option.getD_some, Option.some_inj]
      exact decide_eq_true_iff
  · intro hcond
    unfold cfBalancedFlag
    rw [if_neg (by rw [hcond]; exact Bool.false_ne_true)]

/-- Witness for `c8_cf_flag`: with all columns present and
`CFO = 400, CFI = −300, CFF = −99`, the flag is true (|1| ≤ 1 000); with the
`CFF` column absent, the flag is NA. -/
theorem c8_cf_flag_witness :
    (cfBalancedFlag ["CFO", "CFI", "CFF"]
      { adsh := "a", cik := none, fy := none, filed := none, form := none,
        CFO := some 400, CFI := some (-300), CFF := some (-99) } = some true ↔
      |(400 : Rat) + (-300) + (-99)| ≤ (1000 : Rat)) ∧
    cfBalancedFlag ["CFO", "CFI"]
      { adsh := "a", cik := none, fy := none, filed := none, form := none,
        CFO := some 400, CFI := some (-300), CFF := some (-99) } = none := by
  constructor
  · exact (((c8_cf_flag ["CFO", "CFI", "CFF"] _).1 (by decide) (by decide) (by decide)).2
      400 (-300) (-99) rfl rfl rfl)
  · exact (c8_cf_flag ["CFO", "CFI"] _).2 (by decide)

/-! ## Deduplication: `_latest_per_cik_fy` -/

/-- `filedLe` is reflexive. -/
theorem filedLe_refl (a : Option Nat) : filedLe a a = true := by
  cases a <;> simp [filedLe]

/-- `filedLe` is transitive. -/
theorem filedLe_trans {a b c : Option Nat} (h1 : filedLe a b = true)
    (h2 : filedLe b c = true) : filedLe a c = true := by
  cases a <;> cases b <;> cases c <;> simp_all [filedLe] <;> omega

/-- `filedLe` is total. -/
theorem filedLe_total {a b : Option Nat} (h : filedLe a b = false) :
    filedLe b a = true := by
  cases a <;> cases b <;> simp_all [filedLe] <;> omega

/-- The dedup fold keeps an element of the group. -/
theorem latestFold_mem (h : PanelRow) (t : List PanelRow) :
    (t.foldl (fun acc r => if filedLe acc.filed r.filed then r else acc) h) ∈ h :: t := by
  induction t generalizing h with
  | nil => exact List.mem_singleton.mpr rfl
  | cons r t' ih =>
      rw [List.foldl_cons]
      have hmem := ih (if filedLe h.filed r.filed then r else h)
      rcases List.mem_cons.mp hmem with heq | htail
      · rw [heq]
        by_cases hc : filedLe h.filed r.filed = true
        · rw [if_pos hc]
          exact List.mem_cons_of_mem h (List.mem_cons_self r t')
        · rw [if_neg hc]
          exact List.mem_cons_self h (r :: t')
      · exact List.mem_cons_of_mem h (List.mem_cons_of_mem r htail)

/-- The dedup fold returns a row whose `filed` dominates the whole group. -/
theorem latestFold_max (h : PanelRow) (t : List PanelRow) :
    ∀ y ∈ h :: t,
      filedLe y.filed
        ((t.foldl (fun acc r => if filedLe acc.filed r.filed then r else acc) h)).filed
        = true := by
  induction t generalizing h with
  | nil =>
      intro y hy
      rw [List.mem_singleton.mp hy]
      exact filedLe_refl _
  | cons r t' ih =>
      intro y hy
      rw [List.foldl_cons]
      have hstep_h : filedLe h.filed (if filedLe h.filed r.filed then r else h).filed = true := by
        by_cases hc : filedLe h.filed r.filed = true
        · rw [if_pos hc]; exact hc
        · rw [if_neg hc]; exact filedLe_refl _
      have hstep_r : filedLe r.filed (if filedLe h.filed r.filed then r else h).filed = true := by
        by_cases hc : filedLe h.filed r.filed = true
        · rw [if_pos hc]; exact filedLe_refl _
        · rw [if_neg hc]
          exact filedLe_total (Bool.eq_false_iff.mpr hc)
      have hhead := ih (if filedLe h.filed r.filed then r else h)
        (if filedLe h.filed r.filed then r else h)
        (List.mem_cons_self _ _)
      rcases List.mem_cons.mp hy with hyh | hy'
      · rw [hyh]
        exact filedLe_trans hstep_h hhead
      · rcases List.mem_cons.mp hy' with hyr | hyt
        · rw [hyr]
          exact filedLe_trans hstep_r hhead
        · exact ih _ y (List.mem_cons_of_mem _ hyt)

/-- The dedup fold returns the *last* maximal row: everything after it in the
group has a strictly smaller `filed` key (no form-based preference of any
kind). -/
theorem latestFold_last (h : PanelRow) (t : List PanelRow) :
    ∃ l₁ l₂, h :: t
        = l₁ ++ ((t.foldl (fun acc r => if filedLe acc.filed r.filed then r else acc) h)) :: l₂ ∧
      ∀ y ∈ l₂,
        filedLe ((t.foldl (fun acc r => if filedLe acc.filed r.filed then r else acc) h)).filed
          y.filed = false := by
  induction t generalizing h with
  | nil => exact ⟨[], [], rfl, by intro y hy; cases hy⟩
  | cons r t' ih =>
      rw [List.foldl_cons]
      by_cases hc : filedLe h.filed r.filed = true
      · rw [if_pos hc]
        rcases ih r with ⟨m₁, m₂, hsplit, hprop⟩
        exact ⟨h :: m₁, m₂, by rw [List.cons_append, ← hsplit], hprop⟩
      · rw [if_neg hc]
        rcases ih h with ⟨m₁, m₂, hsplit, hprop⟩
        rcases m₁ with _ | ⟨a, m₁'⟩
        · rw [List.nil_append] at hsplit
          injection hsplit with h1 h2
          refine ⟨[], r :: m₂, ?_, ?_⟩
          · rw [List.nil_append, ← h1, h2]
          · intro y hy
            rcases List.mem_cons.mp hy with hyr | hym
            · rw [hyr, ← h1]
              exact Bool.eq_false_iff.mpr hc
            · exact hprop y hym
        · rw [List.cons_append] at hsplit
          injection hsplit with h1 h2
          refine ⟨h :: r :: m₁', m₂, ?_, hprop⟩
          rw [List.cons_append, List.cons_append, ← h2]

/-- `chooseLatest` characterization on a non-empty group. -/
theorem chooseLatest_spec (g : List PanelRow) (hg : g ≠ []) :
    ∃ r, chooseLatest g = some r ∧ r ∈ g ∧
      (∀ y ∈ g, filedLe y.filed r.filed = true) ∧
      ∃ l₁ l₂, g = l₁ ++ r :: l₂ ∧ ∀ y ∈ l₂, filedLe r.filed y.filed = false := by
  rcases g with _ | ⟨h, t⟩
  · exact absurd rfl hg
  · exact ⟨_, rfl, latestFold_mem h t, latestFold_max h t, latestFold_last h t⟩

/-- A successful `chooseLatest` returns a member of its group. -/
theorem chooseLatest_mem {g : List PanelRow} {r : PanelRow}
    (h : chooseLatest g = some r) : r ∈ g := by
  rcases g with _ | ⟨h0, t⟩
  · exact absurd h (by simp [chooseLatest])
  · have := latestFold_mem h0 t
    unfold chooseLatest at h
    rw [Option.some_inj.mp h] at this
    exact this

/-- Key-count of a concatenation of row lists. -/
theorem keyCount_flatten (ls : List (List PanelRow)) (k : Option String × Option String) :
    ((ls.flatten).filter (fun r => rowKey r == k)).length
      = (ls.map (fun l => (l.filter (fun r => rowKey r == k)).length)).sum := by
  induction ls with
  | nil => rfl
  | cons l ls' ih =>
      rw [List.flatten_cons, List.filter_append, List.length_append, ih,
        List.map_cons, List.sum_cons]

/-- Over a duplicate-free key list, `filterMap` through a key-respecting
chooser yields at most one row per key. -/
theorem filterMap_choose_count (ks : List (Option String × Option String))
    (hnd : ks.Nodup)
    (choose : Option String × Option String → Option PanelRow)
    (hkey : ∀ k r, choose k = some r → rowKey r = k)
    (k : Option String × Option String) :
    ((ks.filterMap choose).filter (fun r => rowKey r == k)).length ≤ 1 := by
  induction ks with
  | nil => simp
  | cons k0 ks' ih =>
      have hnd' := (List.nodup_cons.mp hnd).2
      have hk0 := (List.nodup_cons.mp hnd).1
      rw [List.filterMap_cons]
      rcases hch : choose k0 with _ | r0
      · exact ih hnd'
      · rw [List.filter_cons]
        by_cases hkk : (rowKey r0 == k) = true
        · rw [if_pos hkk]
          have hr0 : rowKey r0 = k0 := hkey k0 r0 hch
          have hkeq : k = k0 := by
            rw [← hr0]
            exact (eq_of_beq hkk).symm
          have hnone : ((ks'.filterMap choose).filter (fun r => rowKey r == k)) = [] := by
            apply List.filter_eq_nil_iff.mpr
            intro r hr
            rcases List.mem_filterMap.mp hr with ⟨k', hk', hch'⟩
            have hkr : rowKey r = k' := hkey k' r hch'
            rw [hkr]
            intro hcon
            have hkk' : k' = k := eq_of_beq hcon
            rw [hkk', hkeq] at hk'
            exact hk0 hk'
          rw [List.length_cons, hnone]
          exact Nat.le_refl 1
        · rw [if_neg (by rw [Bool.not_eq_true] at hkk ⊢; exact hkk)]
          exact ih hnd'

/-- Full behaviour of `_latest_per_cik_fy` when the three key columns are
present: every surviving row comes from the input, dominates its `(cik, fy)`
group's `filed` values, is the last row of the group attaining that maximum,
and at most one row survives per key. -/
theorem latest_per_cik_fy_spec (p : Panel)
    (hcols : (["cik", "fy", "filed"].all (fun c => p.columns.contains c)) = true) :
    (∀ r, r ∈ (latest_per_cik_fy p).rows →
      r ∈ p.rows ∧
      (∀ y ∈ p.rows, rowKey y = rowKey r → filedLe y.filed r.filed = true) ∧
      ∃ l₁ l₂, p.rows.filter (fun x => rowKey x == rowKey r) = l₁ ++ r :: l₂ ∧
        ∀ y ∈ l₂, filedLe r.filed y.filed = false) ∧
    (∀ k, keyCount (latest_per_cik_fy p) k ≤ 1) := by
  by_cases hemp : p.rows.isEmpty = true
  · have hrows : p.rows = [] := List.isEmpty_iff.mp hemp
    unfold latest_per_cik_fy
    rw [if_pos hemp]
    constructor
    · intro r hr
      rw [hrows] at hr
      cases hr
    · intro k
      unfold keyCount
      rw [hrows]
      simp
  · have hlat : (latest_per_cik_fy p).rows
        = ((p.rows.map rowKey).dedup).filterMap
            (fun k => chooseLatest (p.rows.filter (fun r => rowKey r == k))) := by
      unfold latest_per_cik_fy
      rw [if_neg hemp, if_neg (fun hcon => hcon hcols)]
    constructor
    · intro r hr
      rw [hlat] at hr
      rcases List.mem_filterMap.mp hr with ⟨k, hk, hch⟩
      have hrmem : r ∈ p.rows.filter (fun x => rowKey x == k) := chooseLatest_mem hch
      have hgne : p.rows.filter (fun x => rowKey x == k) ≠ [] :=
        List.ne_nil_of_mem hrmem
      rcases chooseLatest_spec _ hgne with ⟨r', hch', hmem', hmax', hlast'⟩
      have hrr : r' = r := by
        rw [hch] at hch'
        exact (Option.some_inj.mp hch').symm
      rw [hrr] at hmem' hmax' hlast'
      have hkey : rowKey r = k := by
        have := (List.mem_filter.mp hrmem).2
        exact eq_of_beq this
      refine ⟨(List.mem_filter.mp hrmem).1, ?_, ?_⟩
      · intro y hy hyk
        exact hmax' y (List.mem_filter.mpr ⟨hy, beq_iff_eq.mpr (by rw [hyk, hkey])⟩)
      · rw [hkey]
        exact hlast'
    · intro k
      unfold keyCount
      rw [hlat]
      exact filterMap_choose_count _ (List.nodup_dedup _) _
        (fun k' r hch => by
          have := (List.mem_filter.mp (chooseLatest_mem hch)).2
          exact eq_of_beq this) k

/-- C7 — counterexample: when a `10-K/A` (amended) row and a `10-K` (original)
row for the same `(cik, fy)` carry the same filing date, with the amended row
first in input order, the deduplication keeps the *original* — there is no
preference for amended forms. -/
theorem c7_dedup_tiebreak_counterexample :
    (latest_per_cik_fy
      ⟨["cik", "fy", "filed", "form"],
       [⟨"a-amended", some "1", some "2024", some 20250301, some "10-K/A",
         none, none, none⟩,
        ⟨"a-original", some "1", some "2024", some 20250301, some "10-K",
         none, none, none⟩]⟩).rows
      = [⟨"a-original", some "1", some "2024", some 20250301, some "10-K",
          none, none, none⟩] ∧
    (⟨"a-original", some "1", some "2024", some 20250301, some "10-K",
      none, none, none⟩ : PanelRow).form = some "10-K" ∧
    (⟨"a-amended", some "1", some "2024", some 20250301, some "10-K/A",
      none, none, none⟩ : PanelRow).form = some "10-K/A" := by
  refine ⟨by decide, by decide, by decide⟩

/-- C7 — Deduplication tie-breaking, amended: after `_latest_per_cik_fy`
every surviving row comes from the input, its `filed` date dominates every
row of its `(cik, fy)` group (a missing date sorting above every present
one), and it is the *last row in input order* among those attaining that
maximum — same-date ties are broken purely by input position, with no
preference for amended forms. -/
theorem c7_dedup_latest_filed (p : Panel)
    (hcols : (["cik", "fy", "filed"].all (fun c => p.columns.contains c)) = true) :
    ∀ r ∈ (latest_per_cik_fy p).rows,
      r ∈ p.rows ∧
      (∀ y ∈ p.rows, rowKey y = rowKey r → filedLe y.filed r.filed = true) ∧
      ∃ l₁ l₂, p.rows.filter (fun x => rowKey x == rowKey r) = l₁ ++ r :: l₂ ∧
        ∀ y ∈ l₂, filedLe r.filed y.filed = false :=
  fun r hr => (latest_per_cik_fy_spec p hcols).1 r hr

/-- Witness for `c7_dedup_latest_filed` on a two-row panel whose second row
is filed later. -/
theorem c7_dedup_latest_filed_witness :
    (⟨"a2", some "1", some "2024", some 20250301, some "10-K/A",
      none, none, none⟩ : PanelRow) ∈
      (latest_per_cik_fy
        ⟨["cik", "fy", "filed"],
         [⟨"a1", some "1", some "2024", some 20250110, some "10-K",
           none, none, none⟩,
          ⟨"a2", some "1", some "2024", some 20250301, some "10-K/A",
           none, none, none⟩]⟩).rows ∧
    (⟨"a2", some "1", some "2024", some 20250301, some "10-K/A",
      none, none, none⟩ : PanelRow) ∈
      (⟨["cik", "fy", "filed"],
        [⟨"a1", some "1", some "2024", some 20250110, some "10-K",
          none, none, none⟩,
         ⟨"a2", some "1", some "2024", some 20250301, some "10-K/A",
          none, none, none⟩]⟩ : Panel).rows := by
  refine ⟨by decide, ?_⟩
  exact (c7_dedup_latest_filed
    ⟨["cik", "fy", "filed"],
     [⟨"a1", some "1", some "2024", some 20250110, some "10-K",
       none, none, none⟩,
      ⟨"a2", some "1", some "2024", some 20250301, some "10-K/A",
       none, none, none⟩]⟩ (by decide)
    ⟨"a2", some "1", some "2024", some 20250301, some "10-K/A",
     none, none, none⟩ (by decide)).1

/-- C5 — counterexample: the archive aggregator of
`src/data_extract/gold_builder/builder_all.py` concatenates per-ZIP panels
*without* re-deduplicating, so a `(cik, fy)` pair present in two archives
yields two rows in the master panel, not one. -/
theorem c5_no_cross_archive_dedup_counterexample :
    keyCount
      (build_gold_all
        [⟨["cik", "fy", "filed"],
          [⟨"a1", some "1", some "2024", some 20250110, some "10-K",
            none, none, none⟩]⟩,
         ⟨["cik", "fy", "filed"],
          [⟨"a2", some "1", some "2024", some 20250215, some "10-K/A",
            none, none, none⟩]⟩])
      (some "1", some "2024") = 2 := by
  decide

/-- C5 — Master-panel deduplication, amended: the master panel built by
`build_gold_all` carries every row of every per-archive panel (its key counts
are the *sums* of the per-archive key counts — no cross-archive
deduplication); deduplication to at most one row per `(cik, fy)`, keeping a
row whose `filed` dominates its group, happens only inside
`_latest_per_cik_fy`, applied per archive. -/
theorem c5_master_panel_rows :
    (∀ (panels : List Panel) (k : Option String × Option String),
      keyCount (build_gold_all panels) k
        = (panels.map (fun p => keyCount p k)).sum) ∧
    (∀ p : Panel,
      (["cik", "fy", "filed"].all (fun c => p.columns.contains c)) = true →
      (∀ k, keyCount (latest_per_cik_fy p) k ≤ 1) ∧
      (∀ r ∈ (latest_per_cik_fy p).rows, ∀ y ∈ p.rows,
        rowKey y = rowKey r → filedLe y.filed r.filed = true)) := by
  constructor
  · intro panels k
    rcases panels with _ | ⟨p, ps⟩
    · rfl
    · unfold build_gold_all
      rw [if_neg (by simp)]
      unfold keyCount
      rw [keyCount_flatten, List.map_map]
      rfl
  · intro p hcols
    exact ⟨(latest_per_cik_fy_spec p hcols).2,
      fun r hr y hy hk => ((latest_per_cik_fy_spec p hcols).1 r hr).2.1 y hy hk⟩

/-- Witness for `c5_master_panel_rows` on a one-archive master panel. -/
theorem c5_master_panel_rows_witness :
    keyCount
      (build_gold_all
        [⟨["cik", "fy", "filed"],
          [⟨"a1", some "1", some "2024", some 20250110, some "10-K",
            none, none, none⟩]⟩])
      (some "1", some "2024")
      = ([⟨["cik", "fy", "filed"],
           [⟨"a1", some "1", some "2024", some 20250110, some "10-K",
             none, none, none⟩]⟩].map
          (fun p => keyCount p (some "1", some "2024"))).sum ∧
    (∀ k, keyCount
      (latest_per_cik_fy
        ⟨["cik", "fy", "filed"],
         [⟨"a1", some "1", some "2024", some 20250110, some "10-K",
           none, none, none⟩]⟩) k ≤ 1) := by
  constructor
  · exact c5_master_panel_rows.1 _ _
  · exact (c5_master_panel_rows.2
      ⟨["cik", "fy", "filed"],
       [⟨"a1", some "1", some "2024", some 20250110, some "10-K",
         none, none, none⟩]⟩ (by decide)).1

/-! ## Collision resolution -/

/-- One resolution step keeps one of its two arguments. -/
theorem pick_cases (tm : TagMap) (a b : MappedRow) :
    pickPreferred tm a b = a ∨ pickPreferred tm a b = b := by
  unfold pickPreferred
  split_ifs
  · exact Or.inr rfl
  · exact Or.inl rfl
  · exact Or.inr rfl
  · exact Or.inl rfl

/-- One resolution step never increases the preference rank. -/
theorem pick_rank_le (tm : TagMap) (a b : MappedRow) :
    mRank tm (pickPreferred tm a b) ≤ mRank tm a ∧
    mRank tm (pickPreferred tm a b) ≤ mRank tm b := by
  unfold pickPreferred
  split_ifs with h1 h2 h3
  · exact ⟨Nat.le_of_lt h1, Nat.le_refl _⟩
  · exact ⟨Nat.le_refl _, Nat.le_of_lt h2⟩
  · exact ⟨Nat.le_of_not_lt h2, Nat.le_refl _⟩
  · exact ⟨Nat.le_refl _, Nat.le_of_not_lt h1⟩

/-- One resolution step keeps, among rank ties, a row of maximal absolute
value. -/
theorem pick_abs_ge (tm : TagMap) (a b : MappedRow) :
    (mRank tm a = mRank tm (pickPreferred tm a b) →
      mAbs a ≤ mAbs (pickPreferred tm a b)) ∧
    (mRank tm b = mRank tm (pickPreferred tm a b) →
      mAbs b ≤ mAbs (pickPreferred tm a b)) := by
  unfold pickPreferred
  split_ifs with h1 h2 h3
  · constructor
    · intro hra
      rw [hra] at h1
      exact absurd h1 (lt_irrefl _)
    · intro _
      exact le_refl _
  · constructor
    · intro _
      exact le_refl _
    · intro hrb
      rw [hrb] at h2
      exact absurd h2 (lt_irrefl _)
  · exact ⟨fun _ => le_of_lt h3, fun _ => le_refl _⟩
  · exact ⟨fun _ => le_refl _, fun _ => le_of_not_lt h3⟩

/-- The collision-resolution fold keeps a candidate. -/
theorem resolveFold_mem (tm : TagMap) (h : MappedRow) (t : List MappedRow) :
    (t.foldl (pickPreferred tm) h) ∈ h :: t := by
  induction t generalizing h with
  | nil => exact List.mem_singleton.mpr rfl
  | cons r t' ih =>
      rw [List.foldl_cons]
      rcases List.mem_cons.mp (ih (pickPreferred tm h r)) with heq | htail
      · rw [heq]
        rcases pick_cases tm h r with hp | hp
        · rw [hp]
          exact List.mem_cons_self _ _
        · rw [hp]
          exact List.mem_cons_of_mem _ (List.mem_cons_self _ _)
      · exact List.mem_cons_of_mem _ (List.mem_cons_of_mem _ htail)

/-- The collision-resolution fold attains the minimal preference rank of its
candidate group. -/
theorem resolveFold_rank (tm : TagMap) (h : MappedRow) (t : List MappedRow) :
    ∀ y ∈ h :: t, mRank tm (t.foldl (pickPreferred tm) h) ≤ mRank tm y := by
  induction t generalizing h with
  | nil =>
      intro y hy
      rw [List.mem_singleton.mp hy]
      exact Nat.le_refl _
  | cons r t' ih =>
      intro y hy
      rw [List.foldl_cons]
      have hhead := ih (pickPreferred tm h r) (pickPreferred tm h r)
        (List.mem_cons_self _ _)
      rcases List.mem_cons.mp hy with hyh | hy'
      · rw [hyh]
        exact Nat.le_trans hhead (pick_rank_le tm h r).1
      · rcases List.mem_cons.mp hy' with hyr | hyt
        · rw [hyr]
          exact Nat.le_trans hhead (pick_rank_le tm h r).2
        · exact ih _ y (List.mem_cons_of_mem _ hyt)

/-- Among candidates tying the minimal rank, the fold attains the maximal
absolute value. -/
theorem resolveFold_abs (tm : TagMap) (h : MappedRow) (t : List MappedRow) :
    ∀ y ∈ h :: t,
      mRank tm y = mRank tm (t.foldl (pickPreferred tm) h) →
      mAbs y ≤ mAbs (t.foldl (pickPreferred tm) h) := by
  induction t generalizing h with
  | nil =>
      intro y hy _
      rw [List.mem_singleton.mp hy]
      exact le_refl _
  | cons r t' ih =>
      intro y hy hrank
      rw [List.foldl_cons]
      rw [List.foldl_cons] at hrank
      have hres_pick : mRank tm (t'.foldl (pickPreferred tm) (pickPreferred tm h r))
          ≤ mRank tm (pickPreferred tm h r) :=
        resolveFold_rank tm (pickPreferred tm h r) t' _ (List.mem_cons_self _ _)
      rcases List.mem_cons.mp hy with hyh | hy'
      · subst hyh
        have hy_pick : mRank tm (pickPreferred tm y r) ≤ mRank tm y :=
          (pick_rank_le tm y r).1
        have heqp : mRank tm (pickPreferred tm y r)
            = mRank tm (t'.foldl (pickPreferred tm) (pickPreferred tm y r)) :=
          Nat.le_antisymm (hrank ▸ hy_pick) hres_pick
        have habs_pick := ih (pickPreferred tm y r) (pickPreferred tm y r)
          (List.mem_cons_self _ _) heqp
        have habs_y : mAbs y ≤ mAbs (pickPreferred tm y r) :=
          (pick_abs_ge tm y r).1 (by rw [hrank, ← heqp])
        exact le_trans habs_y habs_pick
      · rcases List.mem_cons.mp hy' with hyr | hyt
        · subst hyr
          have hy_pick : mRank tm (pickPreferred tm h y) ≤ mRank tm y :=
            (pick_rank_le tm h y).2
          have heqp : mRank tm (pickPreferred tm h y)
              = mRank tm (t'.foldl (pickPreferred tm) (pickPreferred tm h y)) :=
            Nat.le_antisymm (hrank ▸ hy_pick) hres_pick
          have habs_pick := ih (pickPreferred tm h y) (pickPreferred tm h y)
            (List.mem_cons_self _ _) heqp
          have habs_y : mAbs y ≤ mAbs (pickPreferred tm h y) :=
            (pick_abs_ge tm h y).2 (by rw [hrank, ← heqp])
          exact le_trans habs_y habs_pick
        · exact ih _ y (List.mem_cons_of_mem _ hyt) hrank

/-- `resolveCell` characterization: the resolved fact is a candidate of
minimal rank and, within the minimal rank, of maximal absolute value. -/
theorem resolveCell_spec (tm : TagMap) (mapped : List MappedRow)
    (adsh canon : String) (m : MappedRow)
    (h : resolveCell tm mapped adsh canon = some m) :
    m ∈ candidates mapped adsh canon ∧
    (∀ y ∈ candidates mapped adsh canon, mRank tm m ≤ mRank tm y) ∧
    (∀ y ∈ candidates mapped adsh canon,
      mRank tm y = mRank tm m → mAbs y ≤ mAbs m) := by
  unfold resolveCell at h
  rcases hc : candidates mapped adsh canon with _ | ⟨h0, t⟩
  · rw [hc] at h
    exact Option.noConfusion h
  · rw [hc] at h
    have hm : m = t.foldl (pickPreferred tm) h0 := (Option.some_inj.mp h).symm
    subst hm
    exact ⟨resolveFold_mem tm h0 t, resolveFold_rank tm h0 t, resolveFold_abs tm h0 t⟩

/-- C1 — counterexample: two facts with the same tag, the same rank and tied
absolute values (+5 and −5) make the chosen fact depend on input row order —
swapping the two `num` rows flips the resolved `TotalAssets` cell from 5 to
−5, so "the chosen fact is the same for every permutation of the input row
order" is false. -/
theorem c1_order_dependence_counterexample :
    ([(⟨"adsh1", "Assets", "20241231", some "0", some "USD", some 5⟩ : NumRow),
      ⟨"adsh1", "Assets", "20241231", some "0", some "USD", some (-5)⟩].Perm
     [⟨"adsh1", "Assets", "20241231", some "0", some "USD", some (-5)⟩,
      ⟨"adsh1", "Assets", "20241231", some "0", some "USD", some 5⟩]) ∧
    wideCell
      (transform_balance_sheet_to_wide
        { sub := [⟨"adsh1", "0001", "TestCo", "10-K", "2024", "FY", "20241231",
                   20250214, "7372"⟩],
          pre := [⟨"adsh1", "Assets", "BS"⟩],
          num := [⟨"adsh1", "Assets", "20241231", some "0", some "USD", some 5⟩,
                  ⟨"adsh1", "Assets", "20241231", some "0", some "USD", some (-5)⟩],
          zipName := "2025q1.zip" } BS none none) "adsh1" "TotalAssets"
      = some 5 ∧
    wideCell
      (transform_balance_sheet_to_wide
        { sub := [⟨"adsh1", "0001", "TestCo", "10-K", "2024", "FY", "20241231",
                   20250214, "7372"⟩],
          pre := [⟨"adsh1", "Assets", "BS"⟩],
          num := [⟨"adsh1", "Assets", "20241231", some "0", some "USD", some (-5)⟩,
                  ⟨"adsh1", "Assets", "20241231", some "0", some "USD", some 5⟩],
          zipName := "2025q1.zip" } BS none none) "adsh1" "TotalAssets"
      = some (-5) := by
  refine ⟨List.Perm.swap _ _ _, by decide, by decide⟩

/-- C1 — Collision resolution, amended: the fact resolved for a
`(filing, canonical field)` cell is always a candidate of minimal preference
rank (canonical name rank 0, synonyms in list order, unexpected combinations
rank 10 000) and, among the minimal-rank candidates, of maximal absolute
value; the chosen *rank and absolute value* are invariant under permutation
of the input rows — but when two distinct candidates tie on both keys the
chosen fact itself is the first such candidate in input order (stable sort),
so it may differ between permutations. -/
theorem c1_collision_resolution (tm : TagMap) (mapped : List MappedRow)
    (adsh canon : String) (m : MappedRow)
    (h : resolveCell tm mapped adsh canon = some m) :
    m ∈ candidates mapped adsh canon ∧
    (∀ y ∈ candidates mapped adsh canon, mRank tm m ≤ mRank tm y) ∧
    (∀ y ∈ candidates mapped adsh canon,
      mRank tm y = mRank tm m → mAbs y ≤ mAbs m) ∧
    (∀ (mapped' : List MappedRow) (m' : MappedRow), mapped.Perm mapped' →
      resolveCell tm mapped' adsh canon = some m' →
      mRank tm m' = mRank tm m ∧ mAbs m' = mAbs m) := by
  have hspec := resolveCell_spec tm mapped adsh canon m h
  refine ⟨hspec.1, hspec.2.1, hspec.2.2, ?_⟩
  intro mapped' m' hperm h'
  have hspec' := resolveCell_spec tm mapped' adsh canon m' h'
  have hcand : (candidates mapped adsh canon).Perm (candidates mapped' adsh canon) :=
    hperm.filter _
  have hm'_in : m' ∈ candidates mapped adsh canon := hcand.mem_iff.mpr hspec'.1
  have hm_in' : m ∈ candidates mapped' adsh canon := hcand.mem_iff.mp hspec.1
  have hre : mRank tm m' = mRank tm m :=
    Nat.le_antisymm (hspec'.2.1 m hm_in') (hspec.2.1 m' hm'_in)
  exact ⟨hre, le_antisymm (hspec.2.2 m' hm'_in hre) (hspec'.2.2 m hm_in' hre.symm)⟩

/-- Witness for `c1_collision_resolution` on a two-candidate collision (tags
`Assets` and `LiabilitiesAndStockholdersEquity`, both mapping to
`TotalAssets`): the canonical-order winner `Assets` is chosen. -/
theorem c1_collision_resolution_witness :
    resolveCell BS
      [⟨{ adsh := "a1", tag := "LiabilitiesAndStockholdersEquity",
          ddate := "d", qtrs := some "0", uom := some "USD", value := some 700,
          meta := none, source_zip := "z" }, "TotalAssets"⟩,
       ⟨{ adsh := "a1", tag := "Assets", ddate := "d", qtrs := some "0",
          uom := some "USD", value := some 500, meta := none,
          source_zip := "z" }, "TotalAssets"⟩] "a1" "TotalAssets"
      = some ⟨{ adsh := "a1", tag := "Assets", ddate := "d", qtrs := some "0",
                uom := some "USD", value := some 500, meta := none,
                source_zip := "z" }, "TotalAssets"⟩ ∧
    (⟨{ adsh := "a1", tag := "Assets", ddate := "d", qtrs := some "0",
        uom := some "USD", value := some 500, meta := none,
        source_zip := "z" }, "TotalAssets"⟩ : MappedRow) ∈ candidates
      [⟨{ adsh := "a1", tag := "LiabilitiesAndStockholdersEquity",
          ddate := "d", qtrs := some "0", uom := some "USD", value := some 700,
          meta := none, source_zip := "z" }, "TotalAssets"⟩,
       ⟨{ adsh := "a1", tag := "Assets", ddate := "d", qtrs := some "0",
          uom := some "USD", value := some 500, meta := none,
          source_zip := "z" }, "TotalAssets"⟩] "a1" "TotalAssets" := by
  refine ⟨by decide, ?_⟩
  exact (c1_collision_resolution BS _ "a1" "TotalAssets" _ (by decide)).1

/-- C3 — End-to-end synonym-preference scenario: one filing with the three
balance-sheet facts `Assets = 500`, `StockholdersEquity = 200` and
`Equity = 199` (all `USD`, instant, dated at period end) produces a wide row
with `TotalAssets = 500` and `ShareholdersEquity = 200` — the
higher-preference synonym `StockholdersEquity` beats `Equity` although
199 < 200 plays no role. -/
theorem c3_synonym_preference_scenario :
    wideCell
      (transform_balance_sheet_to_wide
        { sub := [⟨"adsh1", "0001", "TestCo", "10-K", "2024", "FY", "20241231",
                   20250214, "7372"⟩],
          pre := [⟨"adsh1", "Assets", "BS"⟩, ⟨"adsh1", "StockholdersEquity", "BS"⟩,
                  ⟨"adsh1", "Equity", "BS"⟩],
          num := [⟨"adsh1", "Assets", "20241231", some "0", some "USD", some 500⟩,
                  ⟨"adsh1", "StockholdersEquity", "20241231", some "0", some "USD",
                   some 200⟩,
                  ⟨"adsh1", "Equity", "20241231", some "0", some "USD", some 199⟩],
          zipName := "2025q1.zip" } BS none none) "adsh1" "TotalAssets"
      = some 500 ∧
    wideCell
      (transform_balance_sheet_to_wide
        { sub := [⟨"adsh1", "0001", "TestCo", "10-K", "2024", "FY", "20241231",
                   20250214, "7372"⟩],
          pre := [⟨"adsh1", "Assets", "BS"⟩, ⟨"adsh1", "StockholdersEquity", "BS"⟩,
                  ⟨"adsh1", "Equity", "BS"⟩],
          num := [⟨"adsh1", "Assets", "20241231", some "0", some "USD", some 500⟩,
                  ⟨"adsh1", "StockholdersEquity", "20241231", some "0", some "USD",
                   some 200⟩,
                  ⟨"adsh1", "Equity", "20241231", some "0", some "USD", some 199⟩],
          zipName := "2025q1.zip" } BS none none) "adsh1" "ShareholdersEquity"
      = some 200 := by
  refine ⟨by decide, by decide⟩

/-- C4 — counterexample: on an archive with no balance-sheet-designated tags,
the silver transformer returns `pd.DataFrame()` — an empty table with *zero*
columns — while the non-empty case carries identifier plus canonical columns;
the claimed "full expected column schema" on the empty path is false. -/
theorem c4_zero_column_empty_counterexample :
    (transform_balance_sheet_to_wide
      { sub := [⟨"adsh1", "0001", "TestCo", "10-K", "2024", "FY", "20241231",
                 20250214, "7372"⟩],
        pre := [⟨"adsh1", "Assets", "IS"⟩],
        num := [⟨"adsh1", "Assets", "20241231", some "0", some "USD", some 500⟩],
        zipName := "2025q1.zip" } BS none none).columns = [] ∧
    (transform_balance_sheet_to_wide
      { sub := [⟨"adsh1", "0001", "TestCo", "10-K", "2024", "FY", "20241231",
                 20250214, "7372"⟩],
        pre := [⟨"adsh1", "Assets", "BS"⟩],
        num := [⟨"adsh1", "Assets", "20241231", some "0", some "USD", some 500⟩],
        zipName := "2025q1.zip" } BS none none).columns
      = ["adsh", "cik", "name", "form", "fy", "fp", "filed", "period", "sic",
         "TotalAssets"] := by
  refine ⟨by decide, by decide⟩

/-- C4 — Empty-input behaviour, amended: on an archive with no
balance-sheet-designated tags the *bronze extractor* returns the
schema-complete empty table (its 15 literal column names), and the *silver
transformer* returns — without raising — `pd.DataFrame()`, an empty table
with zero columns rather than the non-empty-case schema. -/
theorem c4_empty_input (ar : Archive) (tm : TagMap)
    (forms fp : Option (List String))
    (h : (bsTagPairs ar.pre).isEmpty = true) :
    extract_balance_sheets ar = ⟨BS_EMPTY_COLS, []⟩ ∧
    transform_balance_sheet_to_wide ar tm forms fp = emptyWide := by
  have hex : extract_balance_sheets ar = ⟨BS_EMPTY_COLS, []⟩ := by
    unfold extract_balance_sheets
    rw [if_pos h]
  refine ⟨hex, ?_⟩
  unfold transform_balance_sheet_to_wide
  rw [hex]
  rfl

/-- Witness for `c4_empty_input` on a concrete archive whose only
presentation row designates an income-statement tag. -/
theorem c4_empty_input_witness :
    extract_balance_sheets
      { sub := [⟨"adsh1", "0001", "TestCo", "10-K", "2024", "FY", "20241231",
                 20250214, "7372"⟩],
        pre := [⟨"adsh1", "Revenues", "IS"⟩],
        num := [⟨"adsh1", "Revenues", "20241231", some "4", some "USD", some 9⟩],
        zipName := "2025q1.zip" } = ⟨BS_EMPTY_COLS, []⟩ ∧
    transform_balance_sheet_to_wide
      { sub := [⟨"adsh1", "0001", "TestCo", "10-K", "2024", "FY", "20241231",
                 20250214, "7372"⟩],
        pre := [⟨"adsh1", "Revenues", "IS"⟩],
        num := [⟨"adsh1", "Revenues", "20241231", some "4", some "USD", some 9⟩],
        zipName := "2025q1.zip" } BS none none = emptyWide :=
  c4_empty_input _ BS none none (by decide)

end AEV
